import Mathlib

/-!
Shallow embedding of the apate request-matching and response-synthesis
pipeline (rustrum/apate). Each definition is translated from the named
source function; external engines (the rhai interpreter, the jsonpath
library, minijinja, hex/base64 codecs) are passed in as explicit function
parameters, since they are collaborators outside the core. Resource
references (`ResourceRef`) influence only cache keys and log lines, so the
evaluator model takes the script text directly; cache faithfulness is
settled separately by the `getExec` development below.
-/

namespace Apate

/-- Dynamic value returned by a rhai script evaluation or produced by JSON
parsing, mirroring the cases the source code inspects: unit, booleans,
strings and blobs (byte sequences). -/
inductive Dyn where
  | unit : Dyn
  | bool : Bool → Dyn
  | str : String → Dyn
  | blob : List Nat → Dyn
deriving DecidableEq, Repr

/-- Last-wins association lookup, modelling `HashMap` built by `collect()`
from an iterator: a later pair with the same key overwrites an earlier one. -/
def hashMapGet (m : List (String × String)) (k : String) : Option String :=
  (m.reverse.find? (fun p => p.1 == k)).map (fun p => p.2)

/-- Request snapshot, from `RequestContext` in lib.rs: method (uppercase),
request path, headers map, query argument map, path argument map, and the
JSON view of the body (`Except` models the cached parse result of
`load_body_as_json`, with `Except.error` for a malformed body). -/
structure RequestContext where
  method : String
  requestPath : String
  headers : List (String × String)
  queryArgs : List (String × String)
  pathArgs : List (String × String)
  bodyJson : Except String Dyn
deriving Repr

/-- External engines used by matcher evaluation: the jsonpath query
function, the rhai interpreter (script source, request context, args;
compile and runtime errors are both `Except.error`), and the global script
table seeded from `ApateSpecs.rhai`. -/
structure Engines where
  jsonQuery : String → Dyn → Except String (List Dyn)
  rhaiEval : String → RequestContext → List String → Except String Dyn
  globalScripts : List (String × String)

/-- Matcher sum type from matchers.rs (the `Matcher` enum). -/
inductive Matcher where
  | and (matchers : List Matcher)
  | or (matchers : List Matcher)
  | method (eq : String) (negate : Bool)
  | header (key : String) (value : String) (negate : Bool)
  | queryArg (name : String) (value : String) (negate : Bool)
  | pathArg (name : String) (value : String) (negate : Bool)
  | json (path : String) (eq : String) (negate : Bool)
  | rhai (script : String)
  | rhaiRef (id : String) (args : List String)
deriving Repr

/-- The `flip_boolean` helper from matchers.rs. -/
def flipBoolean (value : Bool) (negate : Bool) : Bool :=
  if negate then !value else value

/-- Character-list test for a needle standing at the front of a haystack. -/
def charsStartWith : List Char → List Char → Bool
  | _, [] => true
  | [], _ :: _ => false
  | h :: hs, n :: ns => h == n && charsStartWith hs ns

/-- Character-list substring test (the empty needle always matches),
modelling Rust `str::contains`. -/
def charsContain : List Char → List Char → Bool
  | [], ns => ns.isEmpty
  | h :: hs, ns => charsStartWith (h :: hs) ns || charsContain hs ns

/-- Rust `str::contains` on strings. -/
def strContains (hay needle : String) : Bool :=
  charsContain hay.data needle.data

/-- Rust `str::to_uppercase`, restricted to the ASCII casing the method
strings use. -/
def strToUpper (s : String) : String :=
  String.mk (s.data.map Char.toUpper)

/-- The `match_method` function: the configured value is uppercased and
tested for containing the request method as a substring. -/
def matchMethod (methodEq : String) (ctx : RequestContext) : Bool :=
  strContains (strToUpper methodEq) ctx.method

/-- The `match_header` function: absent key yields false, otherwise exact
value equality. -/
def matchHeader (key value : String) (ctx : RequestContext) : Bool :=
  match hashMapGet ctx.headers key with
  | none => false
  | some headerValue => headerValue == value

/-- The `match_query_arg` function. -/
def matchQueryArg (name value : String) (ctx : RequestContext) : Bool :=
  match hashMapGet ctx.queryArgs name with
  | none => false
  | some qvalue => value == qvalue

/-- The `match_path_arg` function. -/
def matchPathArg (name value : String) (ctx : RequestContext) : Bool :=
  match hashMapGet ctx.pathArgs name with
  | none => false
  | some qvalue => value == qvalue

/-- The scalar view used by `match_json` (`Value::as_str`): only string
scalars compare successfully. -/
def dynAsStr (d : Dyn) : Option String :=
  match d with
  | .str s => some s
  | _ => none

/-- The `match_json` function: a body parse error yields false, a query
error yields false, and the query must return exactly one string scalar
equal to the configured value. -/
def matchJson (eng : Engines) (path eqv : String) (ctx : RequestContext) : Bool :=
  match ctx.bodyJson with
  | .error _ => false
  | .ok json =>
    match eng.jsonQuery path json with
    | .error _ => false
    | .ok results =>
      match results with
      | [r] => dynAsStr r == some eqv
      | _ => false

/-- The `call_rhai` function for matchers: the script is evaluated
expecting a boolean; an evaluation error or a non-boolean result yields
false. -/
def callRhaiBool (result : Except String Dyn) : Bool :=
  match result with
  | .ok (.bool b) => b
  | _ => false

/-- The `match_rhai` function: an inline script is compiled (cached under
its resource-ref key) and run; any compile or runtime failure yields
false. -/
def matchRhai (eng : Engines) (script : String) (ctx : RequestContext) : Bool :=
  callRhaiBool (eng.rhaiEval script ctx [])

/-- The `match_rhai_ref` function: the referenced global script is looked
up by id (a missing id is an error, hence false) and run with the literal
string arguments. -/
def matchRhaiRef (eng : Engines) (id : String) (args : List String)
    (ctx : RequestContext) : Bool :=
  match hashMapGet eng.globalScripts id with
  | none => false
  | some src => callRhaiBool (eng.rhaiEval src ctx args)

mutual

/-- The `is_matcher_approves` function from matchers.rs: dispatch over the
matcher variants, with `And`/`Or` delegating to the combinator loops. -/
def isMatcherApproves (eng : Engines) (ctx : RequestContext) : Matcher → Bool
  | .queryArg name value negate => flipBoolean (matchQueryArg name value ctx) negate
  | .pathArg name value negate => flipBoolean (matchPathArg name value ctx) negate
  | .method eqv negate => flipBoolean (matchMethod eqv ctx) negate
  | .header key value negate => flipBoolean (matchHeader key value ctx) negate
  | .json path eqv negate => flipBoolean (matchJson eng path eqv ctx) negate
  | .rhai script => matchRhai eng script ctx
  | .rhaiRef id args => matchRhaiRef eng id args ctx
  | .and ms => matchersAnd eng ctx ms
  | .or ms => matchersOr eng ctx ms

/-- The `matchers_and` loop: short-circuits on the first false. -/
def matchersAnd (eng : Engines) (ctx : RequestContext) : List Matcher → Bool
  | [] => true
  | m :: ms => isMatcherApproves eng ctx m && matchersAnd eng ctx ms

/-- The `matchers_or` loop: short-circuits on the first true. -/
def matchersOr (eng : Engines) (ctx : RequestContext) : List Matcher → Bool
  | [] => false
  | m :: ms => isMatcherApproves eng ctx m || matchersOr eng ctx ms

end

/-- Output type tag from output.rs (`OutputType` enum): the serde default
variant is `Jinja`. -/
inductive OutputType where
  | jinja
  | hex
  | base64
deriving DecidableEq, Repr

/-- The `#[default]` variant of `OutputType`, applied when a response
omits `output_type`. -/
def defaultOutputType : OutputType := OutputType.jinja

/-- Tags accepted when deserializing `output_type`, from the serde
attribute `rename_all = snake_case` on the `OutputType` enum. -/
def outputTypeOfTag (s : String) : Option OutputType :=
  if s = "jinja" then some OutputType.jinja
  else if s = "hex" then some OutputType.hex
  else if s = "base64" then some OutputType.base64
  else none

/-- The hex-source normalization inside `build_response_body`: the payload
is trimmed, a leading 0x is stripped, and the result trimmed again. -/
def hexSourceOf (output : String) : String :=
  let t := output.trim
  if t.startsWith "0x" then (t.drop 2).trim else t

/-- The `build_response_body` dispatch from output.rs, with the minijinja
renderer and the hex/base64 decoders passed in as engine functions. -/
def buildResponseBody (render : String → Except String (List Nat))
    (hexDecode : String → Except String (List Nat))
    (b64Decode : String → Except String (List Nat))
    (tp : OutputType) (output : String) : Except String (List Nat) :=
  match tp with
  | .jinja => render output
  | .hex => hexDecode (hexSourceOf output)
  | .base64 => b64Decode output.trim

/-- Processor sum type from processors.rs (the `Processor` enum). -/
inductive Processor where
  | lua (script : String)
  | luaScript (id : String) (args : List String)
  | rhai (script : String)
  | rhaiRef (id : String) (args : List String)
  | embedded (id : String) (args : List String)
deriving Repr

/-- Response variant from deceit.rs (`DeceitResponse`): status codes are
`Nat`, bodies are byte lists. -/
structure DeceitResponse where
  code : Option Nat
  matchers : List Matcher
  headers : List (String × String)
  processors : List Processor
  outputType : OutputType
  output : String
deriving Repr

/-- Rule unit from deceit.rs (`Deceit`). -/
structure Deceit where
  uris : List String
  headers : List (String × String)
  matchers : List Matcher
  jsonRequest : Bool
  processors : List Processor
  responses : List DeceitResponse
deriving Repr

/-- The response-selection loop inside `Deceit::match_response`: the first
response with an empty matcher list is selected immediately; otherwise the
first response any of whose matchers approves is selected (the source
returns `Some(idx)` as soon as one matcher approves). -/
def selectResponse (eng : Engines) (ctx : RequestContext) :
    List DeceitResponse → Nat → Option Nat
  | [], _ => none
  | dr :: rest, idx =>
    if dr.matchers.isEmpty then some idx
    else if matchersOr eng ctx dr.matchers then some idx
    else selectResponse eng ctx rest (idx + 1)

/-- The `Deceit::match_response` function from deceit.rs: the top-level
matcher list must fully approve (any failure returns `none`), then the
response-selection loop runs over the responses in declared order. -/
def matchResponse (eng : Engines) (ctx : RequestContext) (d : Deceit) : Option Nat :=
  if matchersAnd eng ctx d.matchers then selectResponse eng ctx d.responses 0
  else none

/-- The default response code constant from deceit.rs. -/
def DEFAULT_RESPONSE_CODE : Nat := 200

/-- Status computation of `DeceitResponse::prepare` in deceit.rs: the
`override_status` cell when nonzero, else the explicit `code`, else 200. -/
def prepareStatus (overrideStatus : Nat) (code : Option Nat) : Nat :=
  if overrideStatus > 0 then overrideStatus else code.getD DEFAULT_RESPONSE_CODE

/-- Validity test of `http::StatusCode::from_u16`, used by the handler:
codes 100 through 999 are representable. -/
def isValidStatusCode (n : Nat) : Bool :=
  decide (100 ≤ n) && decide (n ≤ 999)

/-- Status computation of `deceit_handler` in handlers/mod.rs: the builder
starts at `DEFAULT_RESPONSE_CODE` and is overwritten by the
`override_status` cell only when it converts to a valid status code; the
explicit `code` field of the selected response is never consulted. -/
def handlerStatus (overrideStatus : Nat) (_code : Option Nat) : Nat :=
  if isValidStatusCode overrideStatus then overrideStatus else DEFAULT_RESPONSE_CODE

/-- ASCII lowercasing applied by actix `HeaderName::from_bytes` when a
header name is parsed or inserted. -/
def lowerStr (s : String) : String :=
  String.mk (s.data.map Char.toLower)

/-- The `insert_header` call on `HttpResponseBuilder` (actix semantics):
the header name is lowercased by `HeaderName` parsing, all existing
entries with the same case-insensitive name are removed, and the new pair
is added under the lowercased name (every stored name is lowercase, so
comparing stored names against the lowered new name implements the
case-insensitive replacement). -/
def insertHeader (hs : List (String × String)) (kv : String × String) :
    List (String × String) :=
  hs.filter (fun p => p.1 ≠ lowerStr kv.1) ++ [(lowerStr kv.1, kv.2)]

/-- The `insert_response_headers` function (handlers/mod.rs and deceit.rs):
Deceit-level headers are inserted first, response-level headers second,
each via `insert_header`. -/
def insertResponseHeaders (parentHeaders headers : List (String × String)) :
    List (String × String) :=
  (parentHeaders ++ headers).foldl insertHeader []

/-- External engines used by `apply_processors`: the embedded processor
registry (id → native callback), the lua and rhai processor runners for
inline scripts (script source, args, body) and for named global scripts
(id, args, body). Each runner returns `ok none` for pass-through, `ok
(some bytes)` for a replacement body, and `error` for a fatal failure
(including an unknown global id, whose lookup error is propagated). -/
structure ProcEngines where
  embedded : String → Option (List String → List Nat → Except String (Option (List Nat)))
  luaRun : String → List String → List Nat → Except String (Option (List Nat))
  luaGlobal : String → List String → List Nat → Except String (Option (List Nat))
  rhaiRun : String → List String → List Nat → Except String (Option (List Nat))
  rhaiGlobal : String → List String → List Nat → Except String (Option (List Nat))

/-- One iteration of the `apply_processors` loop in processors.rs, given
the original renderer output `body` and the accumulated `result`. The
chained input `input_bytes` is `result` when set, else `body`; the
`Embedded`, `Rhai` and `RhaiRef` arms pass `input_bytes` to their
callback, while the `Lua` and `LuaScript` arms pass the original `body`
argument, exactly as the source does. -/
def applyProcessorStep (eng : ProcEngines) (body : List Nat)
    (result : Option (List Nat)) (p : Processor) :
    Except String (Option (List Nat)) :=
  let inputBytes := result.getD body
  match p with
  | .embedded id args =>
    match eng.embedded id with
    | none => .error ("Cant get processor by id " ++ id)
    | some f =>
      match f args inputBytes with
      | .error e => .error e
      | .ok none => .ok result
      | .ok (some newBody) => .ok (some newBody)
  | .lua script =>
    match eng.luaRun script [] body with
    | .error e => .error e
    | .ok none => .ok result
    | .ok (some newBody) => .ok (some newBody)
  | .luaScript id args =>
    match eng.luaGlobal id args body with
    | .error e => .error e
    | .ok none => .ok result
    | .ok (some newBody) => .ok (some newBody)
  | .rhai script =>
    match eng.rhaiRun script [] inputBytes with
    | .error e => .error e
    | .ok none => .ok result
    | .ok (some newBody) => .ok (some newBody)
  | .rhaiRef id args =>
    match eng.rhaiGlobal id args inputBytes with
    | .error e => .error e
    | .ok none => .ok result
    | .ok (some newBody) => .ok (some newBody)

/-- The loop of `apply_processors`, threading the accumulated result. -/
def applyProcessorsGo (eng : ProcEngines) (body : List Nat) :
    List Processor → Option (List Nat) → Except String (Option (List Nat))
  | [], result => .ok result
  | p :: ps, result =>
    match applyProcessorStep eng body result p with
    | .error e => .error e
    | .ok newResult => applyProcessorsGo eng body ps newResult

/-- The `apply_processors` function from processors.rs: starts with no
accumulated result and returns `ok none` when every processor passed
through (the handler then keeps the renderer output). -/
def applyProcessors (eng : ProcEngines) (ps : List Processor) (body : List Nat) :
    Except String (Option (List Nat)) :=
  applyProcessorsGo eng body ps none

/-- The processor chain assembled by `deceit_handler` in handlers/mod.rs:
Deceit-level processors first, then response-level processors. -/
def handlerProcessorChain (d : Deceit) (dr : DeceitResponse) : List Processor :=
  d.processors ++ dr.processors

/-- Compiled rhai artifact; compilation is deterministic in the script
source, so the artifact is modelled as the wrapped source text. -/
structure RhaiAST where
  source : String
deriving DecidableEq, Repr

/-- The `Engine::compile` step, deterministic in the source. -/
def compileRhai (s : String) : RhaiAST := RhaiAST.mk s

/-- The `asts` map of `RhaiState`, as an insertion list (newest first). -/
abbrev AstCache : Type := List (String × RhaiAST)

/-- Lookup in the `asts` map. -/
def cacheFind (c : AstCache) (k : String) : Option RhaiAST :=
  (List.find? (fun p => p.1 == k) c).map (fun p => p.2)

/-- The `RhaiState::get_exec` function from rhai.rs: a cached artifact
under the key is returned as-is; on a miss the supplied source is compiled,
inserted under the key and returned. -/
def getExec (c : AstCache) (id : String) (script : String) : RhaiAST × AstCache :=
  match cacheFind c id with
  | some ast => (ast, c)
  | none => (compileRhai script, (id, compileRhai script) :: c)

/-- Resource reference from lib.rs: the list of indices of the arrays
walked so far (`ResourceRef { ids }`). -/
abbrev ResourceRef : Type := List Nat

/-- `ResourceRef::new`. -/
def refNew (topLevelId : Nat) : ResourceRef := [topLevelId]

/-- `ResourceRef::with_level`: clones and pushes the next index. -/
def withLevel (r : ResourceRef) (id : Nat) : ResourceRef := r ++ [id]

/-- `ResourceRef::as_string`: the indices as decimal strings joined by a
dash. -/
def refAsString (r : ResourceRef) : String :=
  String.intercalate "-" (r.map (fun n => Nat.repr n))

/-- `ResourceRef::to_resource_id`: the resource type, a colon, and the
dashed index path. -/
def toResourceId (resourceType : String) (r : ResourceRef) : String :=
  resourceType ++ ":" ++ refAsString r

/-- Cache key under which `match_rhai` stores the inline script of the
i-th child of an `And` combinator standing at deceit-level matcher
position m of deceit d: `Deceit::match_response` levels the deceit ref by
the matcher index, `is_matcher_approves` passes that ref unchanged to
`matchers_and`, and `matchers_and` levels it by the child index. -/
def deceitAndChildKey (d m i : Nat) : String :=
  toResourceId "lua-matcher" (withLevel (withLevel (refNew d) m) i)

/-- Cache key under which `match_rhai` stores the inline script of matcher
mid of response r of deceit d: `Deceit::match_response` levels the deceit
ref by the response index, then by the matcher index. -/
def responseMatcherKey (d r mid : Nat) : String :=
  toResourceId "lua-matcher" (withLevel (withLevel (refNew d) r) mid)

/-- Cache key under which `apply_rhai_processor` stores the inline script
at position pid of the concatenated processor chain of deceit d: the
handler passes the deceit-only ref into `apply_processors`, which levels
it by the chain position. -/
def processorChainKey (d pid : Nat) : String :=
  toResourceId "rhai-processor" (withLevel (refNew d) pid)

/-- Cache key of the j-th own processor of response r of deceit d, as the
handler computes it: the chain position is the number of Deceit-level
processors plus j, and the selected response index r never enters the
key. -/
def responseProcessorKey (d numDeceitProcs : Nat) (_r j : Nat) : String :=
  processorChainKey d (numDeceitProcs + j)

/-- Named script entry from rhai.rs (`RhaiScript`). -/
structure RhaiScript where
  id : String
  script : String
deriving DecidableEq, Repr

/-- The script-list part of `ApateConfig::read_specs` in lib.rs: fragments
(already parsed documents, from CLI paths and env paths) are concatenated
by `ApateSpecs::append`; no uniqueness check of script ids is performed,
so the result is always `ok`. -/
def readSpecsScripts (fragments : List (List RhaiScript)) :
    Except String (List RhaiScript) :=
  Except.ok fragments.flatten

/-- One `HashMap::insert` on the scripts map (overwrite semantics). -/
def scriptsMapInsert (m : List (String × String)) (kv : String × String) :
    List (String × String) :=
  m.filter (fun p => p.1 ≠ kv.1) ++ [kv]

/-- The map built by `RhaiState::clear_and_update` in rhai.rs:
`scripts.into_iter().map(|v| (v.id, v.script)).collect()` — a `HashMap`
collect, where a later entry with the same id overwrites an earlier one. -/
def clearAndUpdate (scripts : List RhaiScript) : List (String × String) :=
  scripts.foldl (fun m s => scriptsMapInsert m (s.id, s.script)) []

/-- Lookup in the scripts map. -/
def scriptsMapGet (m : List (String × String)) (k : String) : Option String :=
  (List.find? (fun p => p.1 == k) m).map (fun p => p.2)

/-- Raw request headers as delivered by the HTTP layer: a value of `none`
stands for a header value that is not convertible to a valid string
(`HeaderValue::to_str` failed). -/
abbrev RawHeaders : Type := List (String × Option String)

/-- The header-snapshot construction inside `RequestContext::new` in
lib.rs: `filter_map` keeps only the headers whose value converts to a
string and drops the rest (with a warning log). -/
def requestHeaders (raw : RawHeaders) : List (String × String) :=
  raw.filterMap (fun kv => kv.2.map (fun v => (kv.1, v)))

/-- The `ctx.load_headers()` map exposed to scripts (rhai.rs): it maps the
snapshot header entries one-for-one. -/
def loadHeaders (ctx : RequestContext) : List (String × String) :=
  ctx.headers

/-! Concrete fixtures used by the theorems below. -/

/-- Engine fixture: no JSON query support, a rhai interpreter that always
fails, and an empty global script table. -/
def noEngines : Engines where
  jsonQuery := fun _ _ => Except.error "unavailable"
  rhaiEval := fun _ _ _ => Except.error "unavailable"
  globalScripts := []

/-- Engine fixture for matcher error handling: the script named boom fails
at runtime, every other script returns a non-boolean string value. -/
def errEngines : Engines where
  jsonQuery := fun _ _ => Except.error "query failed"
  rhaiEval := fun s _ _ =>
    if s = "boom" then Except.error "runtime error" else Except.ok (Dyn.str "seven")
  globalScripts := []

/-- Request fixture: a GET request with no arguments and a malformed JSON
body. -/
def ctxGet : RequestContext where
  method := "GET"
  requestPath := "/user/check"
  headers := []
  queryArgs := []
  pathArgs := []
  bodyJson := Except.error "expected value at line 1 column 1"

/-- Deceit fixture with a single always-selected response (empty matcher
list). -/
def deceitPlain : Deceit where
  uris := ["/ping"]
  headers := []
  matchers := []
  jsonRequest := false
  processors := []
  responses := [{ code := some 200, matchers := [], headers := [],
                  processors := [], outputType := defaultOutputType,
                  output := "pong" }]

/-- Deceit fixture whose single response carries the matcher list
[Method POST, Method GET]: against a GET request the first matcher fails
and the second approves. -/
def deceitTwoMatchers : Deceit where
  uris := ["/user/check"]
  headers := []
  matchers := []
  jsonRequest := false
  processors := []
  responses := [{ code := some 200,
                  matchers := [Matcher.method "POST" false,
                               Matcher.method "GET" false],
                  headers := [], processors := [],
                  outputType := defaultOutputType, output := "ok" }]

/-- Deceit fixture whose top-level matcher list is the single erroring
script matcher. -/
def deceitBoomMatcher : Deceit where
  uris := ["/boom"]
  headers := []
  matchers := [Matcher.rhai "boom"]
  jsonRequest := false
  processors := []
  responses := [{ code := none, matchers := [], headers := [],
                  processors := [], outputType := defaultOutputType,
                  output := "never" }]

/-- Response fixture whose matcher list is the single erroring script
matcher. -/
def responseBoomMatcher : DeceitResponse where
  code := none
  matchers := [Matcher.rhai "boom"]
  headers := []
  processors := []
  outputType := defaultOutputType
  output := "never"

/-- Processor-engine fixture probing the body chain: rhai processors
append byte 1 to the input they receive, lua processors append byte 2 to
the input they receive; the embedded registry is empty. -/
def chainProbeEngines : ProcEngines where
  embedded := fun _ => none
  luaRun := fun _ _ input => Except.ok (some (input ++ [2]))
  luaGlobal := fun _ _ input => Except.ok (some (input ++ [2]))
  rhaiRun := fun _ _ input => Except.ok (some (input ++ [1]))
  rhaiGlobal := fun _ _ input => Except.ok (some (input ++ [1]))

/-- Raw-header fixture: one header whose value is not convertible to a
string, one convertible header under a different key. -/
def rawWithInvalid : RawHeaders := [("x-bad", none), ("good", some "1")]

/-- Request fixture whose header snapshot is built from `rawWithInvalid`. -/
def ctxFiltered : RequestContext where
  method := "GET"
  requestPath := "/"
  headers := requestHeaders rawWithInvalid
  queryArgs := []
  pathArgs := []
  bodyJson := Except.error "empty body"

/-! Theorems settling the claims. -/

/-- C1: at a selected response with explicit code 404 and an untouched
override cell (value 0), the final response built by `deceit_handler` in
handlers/mod.rs has status 200 — the handler never consults the explicit
`code` field — while the status rule of `DeceitResponse::prepare` in
deceit.rs (the rule the claim states) yields 404. -/
theorem c1_handler_ignores_explicit_code :
    handlerStatus 0 (some 404) = 200 ∧
    prepareStatus 0 (some 404) = 404 ∧
    handlerStatus 0 (some 404) ≠ prepareStatus 0 (some 404) := by
  decide

/-- C2: evaluation of `Deceit::match_response` at a GET request and a
response whose matcher list is [Method POST, Method GET]: the code selects
the response (index 0) because the second matcher approves, although the
conjunction of the matcher list is false — the response-level list is
evaluated as an OR, not the implicit AND the claim states (which is what
`matchers_and` computes at Deceit level). -/
theorem c2_response_matchers_are_or_not_and :
    matchResponse noEngines ctxGet deceitTwoMatchers = some 0 ∧
    matchersAnd noEngines ctxGet
      [Matcher.method "POST" false, Matcher.method "GET" false] = false ∧
    matchersOr noEngines ctxGet
      [Matcher.method "POST" false, Matcher.method "GET" false] = true := by
  refine ⟨rfl, rfl, rfl⟩

/-- C3: in `apply_processors`, a rhai processor that replaces the body
(appending byte 1) followed by a lua processor that appends byte 2 to the
input it receives produces [0, 2] from renderer output [0]: the lua
processor received the original renderer output, not the preceding
processor output [0, 1], so the chained result [0, 1, 2] the claim
requires is not produced. -/
theorem c3_lua_processor_sees_renderer_output :
    applyProcessors chainProbeEngines
      [Processor.rhai "r", Processor.lua "l"] [0] =
      Except.ok (some [0, 2]) ∧
    applyProcessors chainProbeEngines
      [Processor.rhai "r", Processor.rhai "r2"] [0] =
      Except.ok (some [0, 1, 1]) := by
  refine ⟨rfl, rfl⟩

/-- C5 counterexample: the tags string, template and script are rejected
by the `OutputType` deserializer, and the serde default variant is
`jinja`, not string. -/
theorem c5_claimed_tags_rejected :
    outputTypeOfTag "string" = none ∧
    outputTypeOfTag "template" = none ∧
    outputTypeOfTag "script" = none ∧
    defaultOutputType = OutputType.jinja := by
  refine ⟨by decide, by decide, by decide, rfl⟩

/-- C5 amended: the set of accepted output-type tags is exactly jinja,
hex and base64; the default is `jinja`, for which `build_response_body`
renders the payload as a minijinja template. -/
theorem c5_output_type_closed_set :
    (∀ s : String, (outputTypeOfTag s).isSome = true ↔
       (s = "jinja" ∨ s = "hex" ∨ s = "base64")) ∧
    defaultOutputType = OutputType.jinja ∧
    (∀ (render hexDecode b64Decode : String → Except String (List Nat))
       (out : String),
       buildResponseBody render hexDecode b64Decode defaultOutputType out =
         render out) := by
  refine ⟨?_, rfl, fun _ _ _ _ => rfl⟩
  intro s
  unfold outputTypeOfTag
  split_ifs with h1 h2 h3 <;> simp_all

/-- C6 counterexample: with the same header key on both levels — also when
the two spellings differ only in case, since actix header names are
case-insensitive — the final header list holds only the response-level
pair (`insert_header` replaces), so it is not the ordered concatenation of
the two lists. -/
theorem c6_same_key_headers_collapse :
    insertResponseHeaders [("a", "1")] [("a", "2")] = [("a", "2")] ∧
    insertResponseHeaders [("X-A", "1")] [("x-a", "2")] = [("x-a", "2")] ∧
    insertResponseHeaders [("a", "1")] [("a", "2")] ≠ [("a", "1"), ("a", "2")] := by
  refine ⟨by decide, by decide, by decide⟩

/-- C8 counterexample: a document whose script list holds two entries with
the same id loads without error (`read_specs` just concatenates), and
`clear_and_update` silently maps the id to the later script. -/
theorem c8_duplicate_ids_accepted :
    readSpecsScripts [[RhaiScript.mk "a" "1", RhaiScript.mk "a" "2"]] =
      Except.ok [RhaiScript.mk "a" "1", RhaiScript.mk "a" "2"] ∧
    scriptsMapGet (clearAndUpdate [RhaiScript.mk "a" "1", RhaiScript.mk "a" "2"]) "a" =
      some "2" := by
  refine ⟨rfl, by decide⟩

/-- Lookup after a map insert at the inserted key finds the inserted
value. -/
theorem scriptsMapGet_insert (m : List (String × String)) (kv : String × String) :
    scriptsMapGet (scriptsMapInsert m kv) kv.1 = some kv.2 := by
  unfold scriptsMapGet scriptsMapInsert
  rw [List.find?_append]
  have hnone : List.find? (fun p => p.1 == kv.1)
      (m.filter (fun p => p.1 ≠ kv.1)) = none := by
    apply List.find?_eq_none.mpr
    intro p hp
    have hne := List.of_mem_filter hp
    simp only [decide_eq_true_eq] at hne
    simp [hne]
  rw [hnone]
  simp [List.find?]

/-- C8 amended: duplicate script ids are accepted; in the map built by
`clear_and_update` the last entry with a given id silently wins. -/
theorem c8_last_duplicate_wins (scripts : List RhaiScript) (s : RhaiScript) :
    scriptsMapGet (clearAndUpdate (scripts ++ [s])) s.id = some s.script := by
  unfold clearAndUpdate
  rw [List.foldl_append]
  simpa using scriptsMapGet_insert
    (List.foldl (fun m t => scriptsMapInsert m (t.id, t.script)) [] scripts)
    (s.id, s.script)

/-- C4: cache keys collide within one configuration epoch, so two distinct
sources ARE stored and retrieved under the same key. The inline script at
And-child position [d=0, m=0, i=1] and the response-level matcher at
[d=0, r=0, mid=1] derive the same lua-matcher key, and the j=0 own
processor of response 0 and of response 1 of a deceit without own
processors derive the same rhai-processor key; after the first site caches
its script, `get_exec` hands the second site the first site's artifact
instead of the fresh compilation of its own, different, source. -/
theorem c4_cache_key_collision :
    deceitAndChildKey 0 0 1 = responseMatcherKey 0 0 1 ∧
    responseProcessorKey 0 0 0 0 = responseProcessorKey 0 0 1 0 ∧
    (getExec ((getExec [] (deceitAndChildKey 0 0 1) "true").2)
        (responseMatcherKey 0 0 1) "false").1 = compileRhai "true" ∧
    compileRhai "true" ≠ compileRhai "false" := by
  refine ⟨rfl, rfl, by decide, by decide⟩

/-- Folding `insert_header` over a list whose lowercased names are
distinct and do not occur among the accumulator names appends the list,
each name lowercased. -/
theorem foldl_insertHeader_of_nodup :
    ∀ (l acc : List (String × String)),
      (l.map (fun q => lowerStr q.1)).Nodup →
      (∀ p ∈ acc, p.1 ∉ l.map (fun q => lowerStr q.1)) →
      l.foldl insertHeader acc = acc ++ l.map (fun q => (lowerStr q.1, q.2)) := by
  intro l
  induction l with
  | nil => intro acc _ _; simp
  | cons kv rest ih =>
    intro acc hnd hdisj
    have hkv1 : lowerStr kv.1 ∉ rest.map (fun q => lowerStr q.1) := by
      simp only [List.map_cons, List.nodup_cons] at hnd
      exact hnd.1
    have hndr : (rest.map (fun q => lowerStr q.1)).Nodup := by
      simp only [List.map_cons, List.nodup_cons] at hnd
      exact hnd.2
    have hkeep : insertHeader acc kv = acc ++ [(lowerStr kv.1, kv.2)] := by
      unfold insertHeader
      have hfil : acc.filter (fun p => p.1 ≠ lowerStr kv.1) = acc := by
        apply List.filter_eq_self.mpr
        intro p hp
        have hne := hdisj p hp
        simp only [List.map_cons, List.mem_cons] at hne
        simp only [decide_eq_true_eq]
        exact fun hcontra => hne (Or.inl hcontra)
      rw [hfil]
    have hdisj2 : ∀ p ∈ acc ++ [(lowerStr kv.1, kv.2)],
        p.1 ∉ rest.map (fun q => lowerStr q.1) := by
      intro p hp
      rcases List.mem_append.mp hp with hpacc | hpkv
      · have h2 := hdisj p hpacc
        simp only [List.map_cons, List.mem_cons] at h2
        exact fun hmem => h2 (Or.inr hmem)
      · have hpe : p = (lowerStr kv.1, kv.2) := by simpa using hpkv
        rw [hpe]
        exact hkv1
    rw [List.foldl_cons, hkeep, ih (acc ++ [(lowerStr kv.1, kv.2)]) hndr hdisj2]
    simp

/-- C6 amended: when no two entries across the two levels share a
case-insensitive header name, the final header list is exactly the ordered
concatenation of the Deceit-level list and the response-level list with
each name lowercased (as actix stores names); with a repeated name,
`insert_header` replaces the earlier entry (see the counterexample). -/
theorem c6_distinct_keys_concat (parentHeaders headers : List (String × String))
    (h : ((parentHeaders ++ headers).map (fun q => lowerStr q.1)).Nodup) :
    insertResponseHeaders parentHeaders headers =
      (parentHeaders ++ headers).map (fun q => (lowerStr q.1, q.2)) := by
  unfold insertResponseHeaders
  rw [foldl_insertHeader_of_nodup (parentHeaders ++ headers) [] h (by simp)]
  simp

/-- Closed instance of the header-concatenation theorem. -/
theorem c6_distinct_keys_concat_witness :
    insertResponseHeaders [("Content-Type", "application/json")] [("X-Count", "2")] =
      [("content-type", "application/json"), ("x-count", "2")] :=
  c6_distinct_keys_concat _ _ (by decide)

/-- Every index returned by the response-selection loop is below the
running index plus the number of remaining responses. -/
theorem selectResponse_some_lt (eng : Engines) (ctx : RequestContext) :
    ∀ (rs : List DeceitResponse) (i j : Nat),
      selectResponse eng ctx rs i = some j → j < i + rs.length := by
  intro rs
  induction rs with
  | nil => intro i j h; simp [selectResponse] at h
  | cons dr rest ih =>
    intro i j h
    simp only [selectResponse] at h
    split at h
    · have hj : i = j := by injection h
      simp only [List.length_cons]
      omega
    · split at h
      · have hj : i = j := by injection h
        simp only [List.length_cons]
        omega
      · have := ih (i + 1) j h
        simp only [List.length_cons]
        omega

/-- C9: whenever `Deceit::match_response` returns an index, the index is a
valid position in the responses list, so the handler lookup
`responses.get(idx)` cannot yield nothing. -/
theorem c9_selected_index_in_bounds (eng : Engines) (ctx : RequestContext)
    (d : Deceit) (idx : Nat) (h : matchResponse eng ctx d = some idx) :
    idx < d.responses.length ∧ d.responses[idx]? ≠ none := by
  have hlt : idx < d.responses.length := by
    unfold matchResponse at h
    split at h
    · have := selectResponse_some_lt eng ctx d.responses 0 idx h
      omega
    · exact absurd h (by simp)
  refine ⟨hlt, ?_⟩
  simp [List.getElem?_eq_getElem hlt]

/-- Closed instance of the index-bound theorem on the plain fixture. -/
theorem c9_selected_index_in_bounds_witness :
    0 < deceitPlain.responses.length ∧ deceitPlain.responses[0]? ≠ none :=
  c9_selected_index_in_bounds noEngines ctxGet deceitPlain 0 rfl

/-- C7: a matcher whose evaluation errors contributes false and evaluation
continues. The conjuncts cover: a script runtime or compile error, a
script returning a non-boolean value, a reference to a missing global
script, and a malformed JSON body under a `Json` matcher (false before the
`negate` flip); an erroring matcher in the Deceit-level list makes
`match_response` return `none` (the handler then continues to the next
Deceit), and an erroring matcher list at response level makes the
selection loop move to the next response — in no case does matcher
evaluation abort the request. -/
theorem c7_matcher_errors_evaluate_false (eng : Engines) (ctx : RequestContext)
    (script scriptNB badId path eqv v : String) (args : List String) (neg : Bool)
    (e1 e2 : String) (d : Deceit) (rs : List DeceitResponse) (idx : Nat)
    (hrhai : eng.rhaiEval script ctx [] = Except.error e1)
    (hnb : eng.rhaiEval scriptNB ctx [] = Except.ok (Dyn.str v))
    (hjson : ctx.bodyJson = Except.error e2)
    (hglobal : hashMapGet eng.globalScripts badId = none)
    (hd : d.matchers = [Matcher.rhai script]) :
    isMatcherApproves eng ctx (Matcher.rhai script) = false ∧
    isMatcherApproves eng ctx (Matcher.rhai scriptNB) = false ∧
    isMatcherApproves eng ctx (Matcher.rhaiRef badId args) = false ∧
    isMatcherApproves eng ctx (Matcher.json path eqv neg) = flipBoolean false neg ∧
    matchResponse eng ctx d = none ∧
    selectResponse eng ctx
      ({ code := none, matchers := [Matcher.rhai script], headers := [],
         processors := [], outputType := defaultOutputType,
         output := "" } :: rs) idx =
      selectResponse eng ctx rs (idx + 1) := by
  refine ⟨?_, ?_, ?_, ?_, ?_, ?_⟩
  · simp [isMatcherApproves, matchRhai, callRhaiBool, hrhai]
  · simp [isMatcherApproves, matchRhai, callRhaiBool, hnb]
  · simp [isMatcherApproves, matchRhaiRef, hglobal]
  · simp [isMatcherApproves, matchJson, hjson]
  · unfold matchResponse
    rw [hd]
    simp [matchersAnd, isMatcherApproves, matchRhai, callRhaiBool, hrhai]
  · simp [selectResponse, matchersOr, isMatcherApproves, matchRhai,
      callRhaiBool, hrhai]

/-- Closed instance of the matcher-error theorem on the erroring engine
fixture. -/
theorem c7_matcher_errors_evaluate_false_witness :
    isMatcherApproves errEngines ctxGet (Matcher.rhai "boom") = false ∧
    isMatcherApproves errEngines ctxGet (Matcher.rhai "str") = false ∧
    isMatcherApproves errEngines ctxGet (Matcher.rhaiRef "missing" []) = false ∧
    isMatcherApproves errEngines ctxGet (Matcher.json "$.a" "x" true) =
      flipBoolean false true ∧
    matchResponse errEngines ctxGet deceitBoomMatcher = none ∧
    selectResponse errEngines ctxGet
      ({ code := none, matchers := [Matcher.rhai "boom"], headers := [],
         processors := [], outputType := defaultOutputType,
         output := "" } :: []) 0 =
      selectResponse errEngines ctxGet [] (0 + 1) :=
  c7_matcher_errors_evaluate_false errEngines ctxGet "boom" "str" "missing"
    "$.a" "x" "seven" [] true "runtime error" "expected value at line 1 column 1"
    deceitBoomMatcher [] 0 rfl rfl rfl rfl rfl

/-- Every header surviving the snapshot filter has a key different from a
key all of whose raw occurrences were unconvertible. -/
theorem requestHeaders_key_all_ne (raw : RawHeaders) (k : String)
    (hnone : raw.all (fun kv => kv.1 != k || kv.2 == none) = true) :
    (requestHeaders raw).all (fun p => p.1 != k) = true := by
  rw [List.all_eq_true] at hnone ⊢
  intro p hp
  obtain ⟨kv, hkv, hmap⟩ := List.mem_filterMap.mp hp
  cases h2 : kv.2 with
  | none => rw [h2] at hmap; simp at hmap
  | some v =>
    rw [h2] at hmap
    simp only [Option.map_some'] at hmap
    have hall := hnone kv hkv
    rw [h2] at hall
    simp only [Bool.or_eq_true, bne_iff_ne, ne_eq] at hall
    rcases hall with hne | habs
    · have hp1 : p.1 = kv.1 := by
        rw [← Option.some.inj hmap]
      simp [hp1, hne]
    · simp at habs

/-- Lookup misses every map whose entries all carry a different key. -/
theorem hashMapGet_eq_none_of_all_ne (m : List (String × String)) (k : String)
    (h : m.all (fun p => p.1 != k) = true) : hashMapGet m k = none := by
  unfold hashMapGet
  have hfind : List.find? (fun p => p.1 == k) m.reverse = none := by
    apply List.find?_eq_none.mpr
    intro p hp
    have hpm : p ∈ m := List.mem_reverse.mp hp
    have hall := List.all_eq_true.mp h p hpm
    simp only [bne_iff_ne, ne_eq] at hall
    simp [hall]
  rw [hfind]
  rfl

/-- The snapshot filter ignores unconvertible headers entirely: building
the snapshot from the raw list equals building it from the raw list with
the unconvertible entries removed. -/
theorem requestHeaders_drop_invalid (raw : RawHeaders) :
    requestHeaders raw = requestHeaders (raw.filter (fun kv => kv.2.isSome)) := by
  induction raw with
  | nil => rfl
  | cons kv rest ih =>
    cases h2 : kv.2 with
    | none =>
      simp [requestHeaders, List.filterMap_cons, List.filter_cons, h2] at ih ⊢
      exact ih
    | some v =>
      simp [requestHeaders, List.filterMap_cons, List.filter_cons, h2] at ih ⊢
      exact ih

/-- C10: a request header whose value is unconvertible is dropped when the
snapshot is built: when the key has no convertible occurrence, the snapshot
map omits the key, a `Header` matcher on the key evaluates to false before
negation, the `load_headers` script map omits the key, and the snapshot
equals the snapshot of the raw headers with the unconvertible entries
removed. -/
theorem c10_invalid_header_dropped (eng : Engines) (raw : RawHeaders)
    (k val : String) (neg : Bool) (ctx : RequestContext)
    (_hmem : ((k, none) : String × Option String) ∈ raw)
    (hnone : raw.all (fun kv => kv.1 != k || kv.2 == none) = true)
    (hctx : ctx.headers = requestHeaders raw) :
    (requestHeaders raw).all (fun p => p.1 != k) = true ∧
    hashMapGet (requestHeaders raw) k = none ∧
    isMatcherApproves eng ctx (Matcher.header k val neg) = flipBoolean false neg ∧
    (loadHeaders ctx).all (fun p => p.1 != k) = true ∧
    requestHeaders raw = requestHeaders (raw.filter (fun kv => kv.2.isSome)) := by
  have h1 := requestHeaders_key_all_ne raw k hnone
  have h2 := hashMapGet_eq_none_of_all_ne _ k h1
  refine ⟨h1, h2, ?_, ?_, requestHeaders_drop_invalid raw⟩
  · simp [isMatcherApproves, matchHeader, hctx, h2]
  · rw [loadHeaders, hctx]
    exact h1

/-- Closed instance of the dropped-header theorem on the raw fixture. -/
theorem c10_invalid_header_dropped_witness :
    (requestHeaders rawWithInvalid).all (fun p => p.1 != "x-bad") = true ∧
    hashMapGet (requestHeaders rawWithInvalid) "x-bad" = none ∧
    isMatcherApproves noEngines ctxFiltered (Matcher.header "x-bad" "z" false) =
      flipBoolean false false ∧
    (loadHeaders ctxFiltered).all (fun p => p.1 != "x-bad") = true ∧
    requestHeaders rawWithInvalid =
      requestHeaders (rawWithInvalid.filter (fun kv => kv.2.isSome)) :=
  c10_invalid_header_dropped noEngines rawWithInvalid "x-bad" "z" false
    ctxFiltered (by decide) (by decide) rfl

end Apate
